import Mathlib

/-!
Shallow embedding of the validation state and reconciliation engine of the
prosemirror-typerighter plugin: the range geometry helpers, the plugin state,
the reducer (`validationPluginReducer` and its action handlers), the plugin
`apply` wrapper that maintains the transaction history, and the orchestrator's
throttle-fire logic (`ValidationService.requestValidation`).

Document positions are modelled as integers in the flat text coordinate
space; a document is modelled as its text (`String`), which is all the
engine reads from it (`textBetween`).  Decoration bookkeeping is a
rendering-layer concern and carries no information the state logic reads
back, so the `decorations` field is omitted from the embedded state.
-/

namespace Typerighter

/-- A half-open document range, `IRange` in the source.  `from` and `to`
are renamed `fromPos` and `toPos` because `from` is a reserved word. -/
structure IRange where
  fromPos : Int
  toPos : Int
deriving DecidableEq, Repr

/-- A region snapshot sent for validation: the range plus the literal text
captured at request time. -/
structure IValidationInput where
  fromPos : Int
  toPos : Int
  inputString : String
deriving DecidableEq, Repr

/-- An accepted validation result. -/
structure IValidationOutput where
  id : String
  fromPos : Int
  toPos : Int
  inputString : String
  annotation : String
  suggestions : List String
deriving DecidableEq, Repr

/-- A terminal failure for one in-flight request. -/
structure IValidationError where
  id : String
  validationInput : IValidationInput
  message : String
deriving DecidableEq, Repr

/-- A successful response for one in-flight request. -/
structure IValidationResponse where
  id : String
  validationOutputs : List IValidationOutput
deriving DecidableEq, Repr

/-- Modelled from the spec: a single edit operation of the Position Mapper
(section 4.1), described abstractly as a replace of the region starting at
`pos` of length `delCount` by `insCount` new characters.  The host
framework's step maps are not part of this repository's source. -/
structure EditStep where
  pos : Int
  delCount : Int
  insCount : Int
deriving DecidableEq, Repr

/-- Modelled from the spec: an accumulating position-translation function is
a sequence of edit steps; appending a mapping is list append, and the empty
mapping is the identity. -/
abbrev Mapping := List EditStep

/-- Modelled from the spec: translate one position through one edit step.
Positions strictly before the replaced region are unchanged, positions
strictly after it are shifted by the length difference, and positions inside
it resolve to the region's start or end according to the bias `assoc`. -/
def stepMapPos (s : EditStep) (assoc : Int) (p : Int) : Int :=
  if p < s.pos then p
  else if p > s.pos + s.delCount then p + s.insCount - s.delCount
  else if assoc < 0 then s.pos else s.pos + s.insCount

/-- Modelled from the spec: translate a position through a whole mapping by
applying its steps in order. -/
def mapPos (m : Mapping) (assoc : Int) (p : Int) : Int :=
  m.foldl (fun q s => stepMapPos s assoc q) p

/-- Modelled from the spec: translate a range through a mapping with the
default expanding bias, so a range still covers text inserted at its
edges. -/
def mapRange (m : Mapping) (r : IRange) : IRange :=
  { fromPos := mapPos m (-1) r.fromPos, toPos := mapPos m 1 r.toPos }

/-- Modelled from the spec: translate a validation output's range through a
mapping, keeping its other fields. -/
def mapOutput (m : Mapping) (o : IValidationOutput) : IValidationOutput :=
  { o with fromPos := mapPos m (-1) o.fromPos, toPos := mapPos m 1 o.toPos }

/-- Modelled from the spec: `mapRanges` applied to a list of validation
outputs (the source function is polymorphic over anything carrying a
range). -/
def mapRanges (outputs : List IValidationOutput) (m : Mapping) : List IValidationOutput :=
  outputs.map (mapOutput m)

/-- The range carried by a validation output. -/
def outputToRange (o : IValidationOutput) : IRange :=
  { fromPos := o.fromPos, toPos := o.toPos }

/-- The range carried by a validation input (`validationInputToRange` in the
source). -/
def validationInputToRange (vi : IValidationInput) : IRange :=
  { fromPos := vi.fromPos, toPos := vi.toPos }

/-- Strict intersection of two half-open ranges, as in the spec's
`findOverlap` condition: `a.from < b.to` and `a.to > b.from`. -/
def rangesOverlap (a b : IRange) : Bool :=
  a.fromPos < b.toPos && a.toPos > b.fromPos

/-- Modelled from the spec: index search for `findOverlappingRangeIndex`.
Returns the index of the first element of `ranges` strictly intersecting
`range`, else `-1`. -/
def findOverlappingRangeIndexAux (range : IRange) : List IRange → Int → Int
  | [], _ => -1
  | r :: rest, i =>
    if r.fromPos < range.toPos && r.toPos > range.fromPos then i
    else findOverlappingRangeIndexAux range rest (i + 1)

/-- Modelled from the spec: `findOverlap(range, set)` is the first index `i`
such that `set[i].from < range.to && set[i].to > range.from`, else `-1`. -/
def findOverlappingRangeIndex (range : IRange) (ranges : List IRange) : Int :=
  findOverlappingRangeIndexAux range ranges 0

/-- Modelled from the spec: `removeOverlapping(set, blockers)` returns the
subset of `set` with no element overlapping any element of `blockers`. -/
def removeOverlappingRanges (outputs : List IValidationOutput) (blockers : List IRange) :
    List IValidationOutput :=
  outputs.filter (fun o => findOverlappingRangeIndex (outputToRange o) blockers == -1)

/-- Modelled from the spec: the sort order for `merge` - by `from`, then by
`to`. -/
def rangeLe (a b : IRange) : Bool :=
  a.fromPos < b.fromPos || (a.fromPos == b.fromPos && a.toPos ≤ b.toPos)

/-- Insert a range into a list sorted by `rangeLe`, keeping it sorted. -/
def insertRangeSorted (r : IRange) : List IRange → List IRange
  | [] => [r]
  | x :: xs => if rangeLe r x then r :: x :: xs else x :: insertRangeSorted r xs

/-- Sort a list of ranges by `from`, then `to` (insertion sort). -/
def sortRanges (l : List IRange) : List IRange :=
  l.foldr insertRangeSorted []

/-- Collapse a sorted list of ranges onto an accumulator range: a following
range starting at or before the accumulator's end (touching counts) is
absorbed, otherwise the accumulator is emitted. -/
def collapseInto (acc : IRange) : List IRange → List IRange
  | [] => [acc]
  | b :: rest =>
    if b.fromPos ≤ acc.toPos then
      collapseInto { fromPos := acc.fromPos, toPos := max acc.toPos b.toPos } rest
    else acc :: collapseInto b rest

/-- Collapse overlapping or adjacent ranges in a sorted list. -/
def collapseRanges : List IRange → List IRange
  | [] => []
  | a :: rest => collapseInto a rest

/-- Modelled from the spec: `merge(ranges)` sorts by `from` then `to` and
collapses overlapping or adjacent ranges; two ranges merge iff the later
`from` is at or before the earlier `to`. -/
def mergeRanges (l : List IRange) : List IRange :=
  collapseRanges (sortRanges l)

/-- Modelled from the spec: map every range through the mapping, then
re-merge (the merge-semantics variant of `mapThrough`, used for dirtied
ranges). -/
def mapAndMergeRanges (ranges : List IRange) (m : Mapping) : List IRange :=
  mergeRanges (ranges.map (mapRange m))

/-- Modelled from the spec: merging a response into the accepted results.
Each incoming output is mapped through the in-flight entry's accumulated
mapping, and the mapped outputs replace any prior entries carrying the same
identifier.  The `validationInput` argument is kept for signature fidelity
with the source call site. -/
def getCurrentValidationsFromValidationResponse (_validationInput : IValidationInput)
    (validationOutputs : List IValidationOutput)
    (currentValidations : List IValidationOutput) (mapping : Mapping) :
    List IValidationOutput :=
  let mapped := mapRanges validationOutputs mapping
  currentValidations.filter (fun v => mapped.all (fun o => o.id != v.id)) ++ mapped

/-- Modelled from the spec: read the literal text of a range of the
document. -/
def textBetween (doc : String) (fromPos toPos : Int) : String :=
  String.mk ((doc.toList.drop fromPos.toNat).take (toPos.toNat - fromPos.toNat))

/-- Modelled from the spec: a request for the whole document snapshots a
single input covering all of it. -/
def createValidationInputsForDocument (doc : String) : List IValidationInput :=
  [{ fromPos := 0, toPos := (doc.length : Int), inputString := doc }]

/-- Information about the span element the user is hovering over
(`IStateHoverInfo` in the source). -/
structure IStateHoverInfo where
  offsetLeft : Int
  offsetTop : Int
  left : Int
  top : Int
  height : Int
  mouseOffsetX : Int
  mouseOffsetY : Int
  heightOfSingleLine : Int
deriving DecidableEq, Repr

/-- A request that has been sent but not yet resolved, `IValidationInFlight`
in the source. -/
structure IValidationInFlight where
  mapping : Mapping
  validationInput : IValidationInput
  id : String
deriving DecidableEq, Repr

/-- A document transaction, as far as the engine reads it: its timestamp
(`tr.time`, used to mint in-flight ids), the resulting document text
(`tr.doc`, read by `textBetween`), and its position mapping
(`tr.mapping`). -/
structure Transaction where
  time : Nat
  doc : String
  mapping : Mapping
deriving DecidableEq, Repr

/-- The plugin state, `IPluginState` in the source.  The `decorations`
field is omitted: it is rendering-layer bookkeeping never read back by the
state logic. -/
structure IPluginState where
  debug : Bool
  initialThrottle : Nat
  currentThrottle : Nat
  maxThrottle : Nat
  currentValidations : List IValidationOutput
  dirtiedRanges : List IRange
  selectedValidation : Option String
  hoverId : Option String
  hoverInfo : Option IStateHoverInfo
  trHistory : List Transaction
  validationPending : Bool
  validationsInFlight : List IValidationInFlight
  error : Option String
deriving DecidableEq, Repr

/-- The function expanding dirtied ranges to the regions actually sent
(`ExpandRanges` in the source); it receives the current dirtied ranges and
the document. -/
abbrev ExpandRanges := List IRange → String → List IRange

/-- The actions carried on a transaction's metadata, one constructor per
action creator in the source. -/
inductive Action where
  | newHoverId (hoverId : Option String) (hoverInfo : Option IStateHoverInfo)
  | validationRequestForDirtyRanges (expandRanges : ExpandRanges)
  | validationRequestForDocument
  | validationRequestSuccess (response : IValidationResponse)
  | validationRequestError (validationError : IValidationError)
  | selectValidation (validationId : String)
  | applyNewDirtiedRanges (ranges : List IRange)
  | setDebugState (debug : Bool)

/-- The initial plugin state (`createInitialState`).  The document argument
is kept for signature fidelity; it only seeds the omitted decoration set. -/
def createInitialState (_doc : String) (throttleInMs : Nat) (maxThrottle : Nat) : IPluginState :=
  { debug := false
    currentThrottle := throttleInMs
    initialThrottle := throttleInMs
    maxThrottle := maxThrottle
    dirtiedRanges := []
    currentValidations := []
    selectedValidation := none
    hoverId := none
    hoverInfo := none
    trHistory := []
    validationsInFlight := []
    validationPending := false
    error := none }

/-- Selector: the current validation with the given id (`selectValidationById`). -/
def selectValidationById (state : IPluginState) (id : String) : Option IValidationOutput :=
  state.currentValidations.find? (fun validation => validation.id == id)

/-- Selector: the in-flight request with the given id
(`selectValidationInFlightById`). -/
def selectValidationInFlightById (state : IPluginState) (id : String) :
    Option IValidationInFlight :=
  state.validationsInFlight.find? (fun e => e.id == id)

/-- Selector: the list of in-flight requests (`selectValidationsInFlight`,
imported by the validation service; its definition is the evident field
read, modelled from the spec as the source file holding it is not in the
snapshot). -/
def selectValidationsInFlight (state : IPluginState) : List IValidationInFlight :=
  state.validationsInFlight

/-- The mandatory per-transaction step at the top of
`validationPluginReducer`: map the dirtied ranges (merging), the current
validations, and every in-flight request's accumulated mapping through the
new transaction. -/
def remapState (tr : Transaction) (incomingState : IPluginState) : IPluginState :=
  { incomingState with
    dirtiedRanges := mapAndMergeRanges incomingState.dirtiedRanges tr.mapping
    currentValidations := mapRanges incomingState.currentValidations tr.mapping
    validationsInFlight := incomingState.validationsInFlight.map (fun e =>
      { e with mapping := e.mapping ++ tr.mapping }) }

/-- Handler for `SELECT_VALIDATION`. -/
def handleSelectValidation (_tr : Transaction) (state : IPluginState)
    (validationId : String) : IPluginState :=
  { state with selectedValidation := some validationId }

/-- Handler for `NEW_HOVER_ID` (decoration juggling omitted). -/
def handleNewHoverId (_tr : Transaction) (state : IPluginState)
    (hoverId : Option String) (hoverInfo : Option IStateHoverInfo) : IPluginState :=
  { state with hoverId := hoverId, hoverInfo := hoverInfo }

/-- Handler for `HANDLE_NEW_DIRTY_RANGES`: evict the current validations
touched by the dirtied ranges, mark a validation as pending, and append the
new dirty ranges. -/
def handleNewDirtyRanges (_tr : Transaction) (state : IPluginState)
    (dirtiedRanges : List IRange) : IPluginState :=
  let currentValidations := state.currentValidations.filter (fun output =>
    findOverlappingRangeIndex (outputToRange output) dirtiedRanges == -1)
  { state with
    validationPending := true
    currentValidations := currentValidations
    dirtiedRanges := state.dirtiedRanges ++ dirtiedRanges }

/-- Shared tail of the request handlers (`handleValidationRequestStart`):
reset the dirty ranges, clear the pending flag, and append one in-flight
entry per input, each with an empty mapping and the transaction's timestamp
as its id. -/
def handleValidationRequestStart (validationInputs : List IValidationInput)
    (tr : Transaction) (state : IPluginState) : IPluginState :=
  { state with
    dirtiedRanges := []
    validationPending := false
    validationsInFlight := state.validationsInFlight ++
      validationInputs.map (fun validationInput =>
        { id := toString tr.time
          mapping := ([] : Mapping)
          validationInput := validationInput }) }

/-- Handler for `VAlIDATION_REQUEST_START`: expand the current dirty
ranges, snapshot each region's text as a validation input, and start the
request. -/
def handleValidationRequestForDirtyRanges (tr : Transaction) (state : IPluginState)
    (expandRanges : ExpandRanges) : IPluginState :=
  let ranges := expandRanges state.dirtiedRanges tr.doc
  let validationInputs := ranges.map (fun range =>
    { inputString := textBetween tr.doc range.fromPos range.toPos
      fromPos := range.fromPos
      toPos := range.toPos })
  handleValidationRequestStart validationInputs tr state

/-- Handler for `VALIDATION_REQUEST_FOR_DOCUMENT`. -/
def handleValidationRequestForDocument (tr : Transaction) (state : IPluginState) :
    IPluginState :=
  handleValidationRequestStart (createValidationInputsForDocument tr.doc) tr state

/-- Handler for `VALIDATION_REQUEST_SUCCESS`: locate the in-flight entry by
the response id (no-op when absent), merge the mapped outputs into the
current validations, drop any result overlapping the current dirtied
ranges, and retire the in-flight entry. -/
def handleValidationRequestSuccess (_tr : Transaction) (state : IPluginState)
    (response : IValidationResponse) : IPluginState :=
  match selectValidationInFlightById state response.id with
  | none => state
  | some validationInFlight =>
    let currentValidations := getCurrentValidationsFromValidationResponse
      validationInFlight.validationInput response.validationOutputs
      state.currentValidations validationInFlight.mapping
    let currentValidations := removeOverlappingRanges currentValidations state.dirtiedRanges
    { state with
      validationsInFlight := state.validationsInFlight.erase validationInFlight
      currentValidations := currentValidations }

/-- Handler for `VALIDATION_REQUEST_ERROR`: when the in-flight entry named
by the error is found, map the range of the validation input carried in the
error payload through that entry's accumulated mapping, merge it back into
the dirtied ranges, and retire the entry; in every case record the error
message. -/
def handleValidationRequestError (_tr : Transaction) (state : IPluginState)
    (validationError : IValidationError) : IPluginState :=
  let validationInFlight := selectValidationInFlightById state validationError.id
  let dirtiedRanges := match validationInFlight with
    | some v => [mapRange v.mapping (validationInputToRange validationError.validationInput)]
    | none => []
  { state with
    dirtiedRanges := if dirtiedRanges.length != 0 then
        mergeRanges (state.dirtiedRanges ++ dirtiedRanges)
      else state.dirtiedRanges
    validationsInFlight := match validationInFlight with
      | some v => state.validationsInFlight.erase v
      | none => state.validationsInFlight
    error := some validationError.message }

/-- Handler for `SET_DEBUG_STATE`. -/
def handleSetDebugState (_tr : Transaction) (state : IPluginState) (debug : Bool) :
    IPluginState :=
  { state with debug := debug }

/-- The reducer (`validationPluginReducer`): apply the mandatory remapping
step, then at most one action handler. -/
def validationPluginReducer (tr : Transaction) (incomingState : IPluginState)
    (action : Option Action) : IPluginState :=
  let state := remapState tr incomingState
  match action with
  | none => state
  | some (.newHoverId hoverId hoverInfo) => handleNewHoverId tr state hoverId hoverInfo
  | some (.validationRequestForDirtyRanges expandRanges) =>
      handleValidationRequestForDirtyRanges tr state expandRanges
  | some .validationRequestForDocument => handleValidationRequestForDocument tr state
  | some (.validationRequestSuccess response) =>
      handleValidationRequestSuccess tr state response
  | some (.validationRequestError validationError) =>
      handleValidationRequestError tr state validationError
  | some (.selectValidation validationId) => handleSelectValidation tr state validationId
  | some (.applyNewDirtiedRanges ranges) => handleNewDirtyRanges tr state ranges
  | some (.setDebugState debug) => handleSetDebugState tr state debug

/-- The transaction-history update performed by the plugin's `apply`: keep
at most the last transactions, dropping the oldest once the history length
exceeds 25. -/
def updateTrHistory (trHistory : List Transaction) (tr : Transaction) : List Transaction :=
  if trHistory.length > 25 then trHistory.drop 1 ++ [tr] else trHistory ++ [tr]

/-- The plugin's `apply` (`createValidationPlugin.ts`): map the range-bearing
fields through the transaction, update the transaction history, then run the
reducer on the action carried in the transaction's metadata. -/
def pluginApply (tr : Transaction) (state : IPluginState) (action : Option Action) :
    IPluginState :=
  let newState := { state with
    dirtiedRanges := mapAndMergeRanges state.dirtiedRanges tr.mapping
    currentValidations := mapRanges state.currentValidations tr.mapping
    trHistory := updateTrHistory state.trHistory tr }
  validationPluginReducer tr newState action

/-- The scheduler-side state of `ValidationService`: its pending flag and
current throttle duration. -/
structure ValidationServiceState where
  validationPending : Bool
  currentThrottle : Nat
deriving DecidableEq, Repr

/-- The outcome of one firing of the orchestrator's throttle timer: either
the dirty-range request was dispatched, or the firing was deferred, with
the delay of the timer armed for the retry (if one was armed). -/
inductive FireOutcome where
  | dispatched
  | deferred (timerDelay : Option Nat)
deriving DecidableEq, Repr

/-- `ValidationService.scheduleValidation`: arm a timer for the next
throttle tick unless one is already pending. -/
def scheduleValidation (svc : ValidationServiceState) : ValidationServiceState × Option Nat :=
  if svc.validationPending then (svc, none)
  else ({ svc with validationPending := true }, some svc.currentThrottle)

/-- `ValidationService.requestValidation`, the throttle timer's callback:
clear the pending flag; if the plugin state is unavailable or any
validation is in flight, defer by rescheduling; otherwise dispatch the
request for the dirty ranges. -/
def requestValidation (svc : ValidationServiceState) (pluginState : Option IPluginState) :
    ValidationServiceState × FireOutcome :=
  let svc := { svc with validationPending := false }
  match pluginState with
  | none =>
    let (svc1, delay) := scheduleValidation svc
    (svc1, .deferred delay)
  | some ps =>
    if (selectValidationsInFlight ps).length != 0 then
      let (svc1, delay) := scheduleValidation svc
      (svc1, .deferred delay)
    else (svc, .dispatched)

/-- States reachable from an initial state by any sequence of reducer
transitions - edits with or without an action. -/
inductive Reachable : IPluginState → Prop where
  | init (doc : String) (throttleInMs maxThrottle : Nat) :
      Reachable (createInitialState doc throttleInMs maxThrottle)
  | step (tr : Transaction) (action : Option Action) {s : IPluginState} :
      Reachable s → Reachable (validationPluginReducer tr s action)

/-- A transaction with the given timestamp, the ten-character document used
by the concrete scenarios, and no position change. -/
def trId (time : Nat) : Transaction :=
  { time := time, doc := "0123456789", mapping := [] }

/-- A concrete in-flight request covering the whole ten-character document. -/
def inFlight01 : IValidationInFlight :=
  { mapping := []
    validationInput := { fromPos := 0, toPos := 10, inputString := "0123456789" }
    id := "r1" }

/-- A concrete validation output for the scenarios. -/
def outputAt (id : String) (fromPos toPos : Int) (text : String) : IValidationOutput :=
  { id := id, fromPos := fromPos, toPos := toPos, inputString := text
    annotation := "msg", suggestions := [] }

/-- A concrete state with one in-flight request and one dirtied range. -/
def stateWithFlightAndDirty : IPluginState :=
  { createInitialState "0123456789" 2000 8000 with
      validationsInFlight := [inFlight01]
      dirtiedRanges := [{ fromPos := 2, toPos := 3 }] }

/-- Trace step 1: dirty the range `[0,10)` from the initial state. -/
def c4Step1 : IPluginState :=
  validationPluginReducer (trId 0) (createInitialState "0123456789" 2000 8000)
    (some (Action.applyNewDirtiedRanges [{ fromPos := 0, toPos := 10 }]))

/-- Trace step 2: dispatch a request whose expand function produces the two
overlapping regions `[0,10)` and `[2,4)`; both in-flight entries receive
the id `"1"` (the transaction timestamp). -/
def c4Step2 : IPluginState :=
  validationPluginReducer (trId 1) c4Step1
    (some (Action.validationRequestForDirtyRanges
      (fun _ _ => [{ fromPos := 0, toPos := 10 }, { fromPos := 2, toPos := 4 }])))

/-- Trace step 3: a success for id `"1"` resolves against the first entry
and accepts an output at `[2,4)` into the current validations. -/
def c4Step3 : IPluginState :=
  validationPluginReducer (trId 2) c4Step2
    (some (Action.validationRequestSuccess
      { id := "1", validationOutputs := [outputAt "a" 2 4 "23"] }))

/-- Trace step 4: a failure for id `"1"` resolves against the remaining
entry and re-dirties `[2,4)` without evicting the accepted result there. -/
def c4Step4 : IPluginState :=
  validationPluginReducer (trId 3) c4Step3
    (some (Action.validationRequestError
      { id := "1", validationInput := { fromPos := 2, toPos := 4, inputString := "23" },
        message := "network error" }))

/-- A concrete state with one in-flight request for `[0,10)` and nothing
else. -/
def c6State : IPluginState :=
  { createInitialState "0123456789" 2000 8000 with validationsInFlight := [inFlight01] }

/-- The state after dirtying the two overlapping ranges `[0,5)` and `[3,8)`
in one transition from the initial state. -/
def c7State : IPluginState :=
  validationPluginReducer (trId 0) (createInitialState "0123456789" 2000 8000)
    (some (Action.applyNewDirtiedRanges
      [{ fromPos := 0, toPos := 5 }, { fromPos := 3, toPos := 8 }]))

/-- The state after one dispatch whose expand function produces two
regions, so two in-flight entries are appended by a single transition. -/
def c8State : IPluginState :=
  validationPluginReducer (trId 7) (createInitialState "0123456789" 2000 8000)
    (some (Action.validationRequestForDirtyRanges
      (fun _ _ => [{ fromPos := 0, toPos := 3 }, { fromPos := 5, toPos := 8 }])))

/-- Strict range intersection is symmetric. -/
theorem rangesOverlap_comm (a b : IRange) : rangesOverlap a b = rangesOverlap b a := by
  unfold rangesOverlap
  show (decide (a.fromPos < b.toPos) && decide (b.fromPos < a.toPos))
      = (decide (b.fromPos < a.toPos) && decide (a.fromPos < b.toPos))
  exact Bool.and_comm _ _

/-- The auxiliary index search returns `-1` exactly when no element of the
list strictly intersects the probed range, provided the running index is
non-negative. -/
theorem findOverlappingRangeIndexAux_eq_neg_one {range : IRange} :
    ∀ (l : List IRange) (i : Int), 0 ≤ i →
      (findOverlappingRangeIndexAux range l i = -1 ↔
        ∀ d ∈ l, rangesOverlap d range = false) := by
  intro l
  induction l with
  | nil => intro i _; simp [findOverlappingRangeIndexAux]
  | cons r rest ih =>
    intro i hi
    have hcons : findOverlappingRangeIndexAux range (r :: rest) i
        = if rangesOverlap r range then i
          else findOverlappingRangeIndexAux range rest (i + 1) := rfl
    rw [hcons]
    by_cases hr : rangesOverlap r range = true
    · rw [if_pos hr]
      constructor
      · intro hcontra; omega
      · intro hall
        have h1 := hall r (List.mem_cons_self r rest)
        rw [hr] at h1
        exact absurd h1 (by simp)
    · have hr' : rangesOverlap r range = false := Bool.eq_false_iff.mpr hr
      rw [if_neg hr, ih (i + 1) (by omega)]
      constructor
      · intro hall d hd
        rcases List.mem_cons.mp hd with hdr | hdrest
        · subst hdr; exact hr'
        · exact hall d hdrest
      · intro hall d hd
        exact hall d (List.mem_cons_of_mem r hd)

/-- `findOverlappingRangeIndex` returns `-1` exactly when no element of the
list strictly intersects the probed range. -/
theorem findOverlappingRangeIndex_eq_neg_one_iff (range : IRange) (l : List IRange) :
    findOverlappingRangeIndex range l = -1 ↔ ∀ d ∈ l, rangesOverlap d range = false :=
  findOverlappingRangeIndexAux_eq_neg_one l 0 (by omega)

/-- Membership in an insertion-sorted list. -/
theorem mem_insertRangeSorted {r y : IRange} :
    ∀ {xs : List IRange}, y ∈ insertRangeSorted r xs ↔ y = r ∨ y ∈ xs := by
  intro xs
  induction xs with
  | nil => simp [insertRangeSorted]
  | cons x xs ih =>
    have hcons : insertRangeSorted r (x :: xs)
        = if rangeLe r x then r :: x :: xs else x :: insertRangeSorted r xs := rfl
    rw [hcons]
    by_cases hle : rangeLe r x = true
    · rw [if_pos hle]
      simp only [List.mem_cons]
    · rw [if_neg hle]
      simp only [List.mem_cons, ih]
      tauto

/-- A failed `rangeLe` comparison still bounds the `from` components. -/
theorem rangeLe_false_fromPos {r x : IRange} (h : rangeLe r x = false) :
    x.fromPos ≤ r.fromPos := by
  unfold rangeLe at h
  simp only [Bool.or_eq_false_iff, Bool.and_eq_false_iff, decide_eq_false_iff_not] at h
  omega

/-- A successful `rangeLe` comparison bounds the `from` components. -/
theorem rangeLe_true_fromPos {r x : IRange} (h : rangeLe r x = true) :
    r.fromPos ≤ x.fromPos := by
  unfold rangeLe at h
  simp only [Bool.or_eq_true, Bool.and_eq_true, decide_eq_true_eq, beq_iff_eq] at h
  omega

/-- Insertion keeps a list sorted by `from`. -/
theorem pairwise_insertRangeSorted {r : IRange} :
    ∀ {xs : List IRange}, xs.Pairwise (fun a b => a.fromPos ≤ b.fromPos) →
      (insertRangeSorted r xs).Pairwise (fun a b => a.fromPos ≤ b.fromPos) := by
  intro xs
  induction xs with
  | nil => intro _; simp [insertRangeSorted]
  | cons x xs ih =>
    intro h
    rcases List.pairwise_cons.mp h with ⟨hx, hxs⟩
    have hcons : insertRangeSorted r (x :: xs)
        = if rangeLe r x then r :: x :: xs else x :: insertRangeSorted r xs := rfl
    rw [hcons]
    by_cases hle : rangeLe r x = true
    · rw [if_pos hle]
      refine List.pairwise_cons.mpr ⟨?_, h⟩
      intro y hy
      rcases List.mem_cons.mp hy with hyx | hyxs
      · subst hyx; exact rangeLe_true_fromPos hle
      · exact le_trans (rangeLe_true_fromPos hle) (hx y hyxs)
    · have hle' : rangeLe r x = false := Bool.eq_false_iff.mpr hle
      rw [if_neg hle]
      refine List.pairwise_cons.mpr ⟨?_, ih hxs⟩
      intro y hy
      rcases mem_insertRangeSorted.mp hy with hyr | hyxs
      · subst hyr; exact rangeLe_false_fromPos hle'
      · exact hx y hyxs

/-- The insertion sort over ranges sorts by `from`. -/
theorem pairwise_sortRanges (l : List IRange) :
    (sortRanges l).Pairwise (fun a b => a.fromPos ≤ b.fromPos) := by
  induction l with
  | nil => simp [sortRanges]
  | cons a l ih => exact pairwise_insertRangeSorted ih

/-- Every range emitted by the collapse starts at or after the accumulator,
when the input is sorted by `from`. -/
theorem collapseInto_fromPos_le :
    ∀ (l : List IRange) (acc : IRange),
      (acc :: l).Pairwise (fun a b => a.fromPos ≤ b.fromPos) →
      ∀ y ∈ collapseInto acc l, acc.fromPos ≤ y.fromPos := by
  intro l
  induction l with
  | nil =>
    intro acc _ y hy
    simp only [collapseInto, List.mem_singleton] at hy
    subst hy; exact le_refl _
  | cons b rest ih =>
    intro acc h y hy
    rcases List.pairwise_cons.mp h with ⟨hacc, hbrest⟩
    rcases List.pairwise_cons.mp hbrest with ⟨hb, hrest⟩
    have hcons : collapseInto acc (b :: rest)
        = if b.fromPos ≤ acc.toPos then
            collapseInto { fromPos := acc.fromPos, toPos := max acc.toPos b.toPos } rest
          else acc :: collapseInto b rest := rfl
    rw [hcons] at hy
    by_cases hm : b.fromPos ≤ acc.toPos
    · rw [if_pos hm] at hy
      have hpair : ({ fromPos := acc.fromPos, toPos := max acc.toPos b.toPos : IRange} :: rest).Pairwise
          (fun a b => a.fromPos ≤ b.fromPos) := by
        refine List.pairwise_cons.mpr ⟨?_, hrest⟩
        intro z hz
        exact hacc z (List.mem_cons_of_mem b hz)
      exact ih _ hpair y hy
    · rw [if_neg hm] at hy
      rcases List.mem_cons.mp hy with hyacc | hyrest
      · subst hyacc; exact le_refl _
      · exact le_trans (hacc b (List.mem_cons_self b rest)) (ih b hbrest y hyrest)

/-- Collapsing a `from`-sorted list yields ranges in ascending order with a
strict gap between consecutive elements. -/
theorem collapseInto_pairwise :
    ∀ (l : List IRange) (acc : IRange),
      (acc :: l).Pairwise (fun a b => a.fromPos ≤ b.fromPos) →
      (collapseInto acc l).Pairwise (fun a b => a.toPos < b.fromPos) := by
  intro l
  induction l with
  | nil => intro acc _; simp [collapseInto]
  | cons b rest ih =>
    intro acc h
    rcases List.pairwise_cons.mp h with ⟨hacc, hbrest⟩
    rcases List.pairwise_cons.mp hbrest with ⟨hb, hrest⟩
    have hcons : collapseInto acc (b :: rest)
        = if b.fromPos ≤ acc.toPos then
            collapseInto { fromPos := acc.fromPos, toPos := max acc.toPos b.toPos } rest
          else acc :: collapseInto b rest := rfl
    rw [hcons]
    by_cases hm : b.fromPos ≤ acc.toPos
    · rw [if_pos hm]
      have hpair : ({ fromPos := acc.fromPos, toPos := max acc.toPos b.toPos : IRange} :: rest).Pairwise
          (fun a b => a.fromPos ≤ b.fromPos) := by
        refine List.pairwise_cons.mpr ⟨?_, hrest⟩
        intro z hz
        exact hacc z (List.mem_cons_of_mem b hz)
      exact ih _ hpair
    · rw [if_neg hm]
      refine List.pairwise_cons.mpr ⟨?_, ih b hbrest⟩
      intro y hy
      have hby : b.fromPos ≤ y.fromPos := collapseInto_fromPos_le rest b hbrest y hy
      omega

/-- `mergeRanges` always produces a merged list: ascending, pairwise
non-overlapping and non-adjacent. -/
theorem mergeRanges_pairwise (l : List IRange) :
    (mergeRanges l).Pairwise (fun a b => a.toPos < b.fromPos) := by
  unfold mergeRanges collapseRanges
  have hsorted := pairwise_sortRanges l
  cases hs : sortRanges l with
  | nil => simp
  | cons a rest =>
    rw [hs] at hsorted
    exact collapseInto_pairwise rest a hsorted

/-- An element surviving `removeOverlappingRanges` overlaps no blocker. -/
theorem mem_removeOverlappingRanges_no_overlap {v : IValidationOutput}
    {outputs : List IValidationOutput} {blockers : List IRange}
    (hmem : v ∈ removeOverlappingRanges outputs blockers) :
    ∀ d ∈ blockers, rangesOverlap (outputToRange v) d = false := by
  intro d hd
  rcases List.mem_filter.mp hmem with ⟨_, hp⟩
  have hidx : findOverlappingRangeIndex (outputToRange v) blockers = -1 := by
    simpa using hp
  have h := (findOverlappingRangeIndex_eq_neg_one_iff _ _).mp hidx d hd
  rw [rangesOverlap_comm]
  exact h

/-- An output overlapping some blocker is excluded by
`removeOverlappingRanges`. -/
theorem not_mem_removeOverlappingRanges {o : IValidationOutput}
    {outputs : List IValidationOutput} {blockers : List IRange} {d : IRange}
    (hd : d ∈ blockers) (hov : rangesOverlap (outputToRange o) d = true) :
    o ∉ removeOverlappingRanges outputs blockers := by
  intro hmem
  have h := mem_removeOverlappingRanges_no_overlap hmem d hd
  rw [hov] at h
  exact absurd h (by simp)

/-- Unfolding of the reducer on a success action whose id matches an
in-flight entry. -/
theorem reducer_success_found (tr : Transaction) (s : IPluginState)
    (response : IValidationResponse) (entry : IValidationInFlight)
    (hfind : selectValidationInFlightById (remapState tr s) response.id = some entry) :
    validationPluginReducer tr s (some (Action.validationRequestSuccess response)) =
      { remapState tr s with
        validationsInFlight := (remapState tr s).validationsInFlight.erase entry
        currentValidations := removeOverlappingRanges
          (getCurrentValidationsFromValidationResponse entry.validationInput
            response.validationOutputs (remapState tr s).currentValidations entry.mapping)
          (remapState tr s).dirtiedRanges } := by
  show handleValidationRequestSuccess tr (remapState tr s) response = _
  unfold handleValidationRequestSuccess
  rw [hfind]

/-- C1: on a `RequestSucceeded` transition resolved against an in-flight
entry, any incoming output that, mapped through that entry's accumulated
mapping, overlaps some range of the current dirtied ranges is absent from
`currentValidations` in the resulting state. -/
theorem c1_stale_result_rejected (tr : Transaction) (s : IPluginState)
    (response : IValidationResponse) (entry : IValidationInFlight) (o : IValidationOutput)
    (hfind : selectValidationInFlightById (remapState tr s) response.id = some entry)
    (_ho : o ∈ response.validationOutputs) (d : IRange)
    (hd : d ∈ (remapState tr s).dirtiedRanges)
    (hov : rangesOverlap (outputToRange (mapOutput entry.mapping o)) d = true) :
    mapOutput entry.mapping o ∉
      (validationPluginReducer tr s
        (some (Action.validationRequestSuccess response))).currentValidations := by
  rw [reducer_success_found tr s response entry hfind]
  exact not_mem_removeOverlappingRanges hd hov

/-- C1 witness: a request for the whole document is in flight, `[2,3)` was
dirtied after dispatch, and the response carries an output at `[2,4)`; the
mapped output overlaps the dirtied range and is rejected. -/
theorem c1_stale_result_rejected_witness :
    (selectValidationInFlightById (remapState (trId 1) stateWithFlightAndDirty) "r1"
        = some inFlight01
      ∧ outputAt "a" 2 4 "23" ∈ [outputAt "a" 2 4 "23"]
      ∧ ({ fromPos := 2, toPos := 3 } : IRange)
          ∈ (remapState (trId 1) stateWithFlightAndDirty).dirtiedRanges
      ∧ rangesOverlap (outputToRange (mapOutput inFlight01.mapping (outputAt "a" 2 4 "23")))
          { fromPos := 2, toPos := 3 } = true)
    ∧ mapOutput inFlight01.mapping (outputAt "a" 2 4 "23") ∉
        (validationPluginReducer (trId 1) stateWithFlightAndDirty
          (some (Action.validationRequestSuccess
            { id := "r1", validationOutputs := [outputAt "a" 2 4 "23"] }))).currentValidations :=
  ⟨⟨by decide, by decide, by decide, by decide⟩,
    c1_stale_result_rejected (trId 1) stateWithFlightAndDirty
      { id := "r1", validationOutputs := [outputAt "a" 2 4 "23"] }
      inFlight01 (outputAt "a" 2 4 "23") (by decide) (by decide)
      { fromPos := 2, toPos := 3 } (by decide) (by decide)⟩

/-- C3: a `RangesDirtied` transition marks a validation as pending, evicts
from the current validations every entry overlapping some newly dirtied
range, and retains every entry overlapping none of them. -/
theorem c3_ranges_dirtied_evicts_overlapping (tr : Transaction) (s : IPluginState)
    (ranges : List IRange) :
    ((validationPluginReducer tr s
        (some (Action.applyNewDirtiedRanges ranges))).validationPending = true)
    ∧ (∀ v ∈ (remapState tr s).currentValidations,
        (∃ r ∈ ranges, rangesOverlap (outputToRange v) r = true) →
          v ∉ (validationPluginReducer tr s
            (some (Action.applyNewDirtiedRanges ranges))).currentValidations)
    ∧ (∀ v ∈ (remapState tr s).currentValidations,
        (∀ r ∈ ranges, rangesOverlap (outputToRange v) r = false) →
          v ∈ (validationPluginReducer tr s
            (some (Action.applyNewDirtiedRanges ranges))).currentValidations) := by
  refine ⟨rfl, ?_, ?_⟩
  · rintro v hv ⟨r, hr, hov⟩ hmem
    have hmem' : v ∈ (remapState tr s).currentValidations.filter (fun output =>
        findOverlappingRangeIndex (outputToRange output) ranges == -1) := hmem
    rcases List.mem_filter.mp hmem' with ⟨_, hp⟩
    have hidx : findOverlappingRangeIndex (outputToRange v) ranges = -1 := by
      simpa using hp
    have h := (findOverlappingRangeIndex_eq_neg_one_iff _ _).mp hidx r hr
    rw [rangesOverlap_comm] at h
    rw [hov] at h
    exact absurd h (by simp)
  · intro v hv hnov
    show v ∈ (remapState tr s).currentValidations.filter (fun output =>
      findOverlappingRangeIndex (outputToRange output) ranges == -1)
    refine List.mem_filter.mpr ⟨hv, ?_⟩
    have hidx : findOverlappingRangeIndex (outputToRange v) ranges = -1 := by
      refine (findOverlappingRangeIndex_eq_neg_one_iff _ _).mpr ?_
      intro d hd
      rw [rangesOverlap_comm]
      exact hnov d hd
    simp [hidx]

/-- C3 witness: a validation at `[2,4)` is evicted by dirtying `[3,6)`,
while a validation at `[7,8)` survives, and the pending flag is set. -/
theorem c3_ranges_dirtied_evicts_overlapping_witness :
    ((validationPluginReducer (trId 1)
        { createInitialState "0123456789" 2000 8000 with
            currentValidations := [outputAt "a" 2 4 "23", outputAt "b" 7 8 "7"] }
        (some (Action.applyNewDirtiedRanges [{ fromPos := 3, toPos := 6 }]))).validationPending
      = true)
    ∧ outputAt "a" 2 4 "23" ∉
        (validationPluginReducer (trId 1)
          { createInitialState "0123456789" 2000 8000 with
              currentValidations := [outputAt "a" 2 4 "23", outputAt "b" 7 8 "7"] }
          (some (Action.applyNewDirtiedRanges
            [{ fromPos := 3, toPos := 6 }]))).currentValidations
    ∧ outputAt "b" 7 8 "7" ∈
        (validationPluginReducer (trId 1)
          { createInitialState "0123456789" 2000 8000 with
              currentValidations := [outputAt "a" 2 4 "23", outputAt "b" 7 8 "7"] }
          (some (Action.applyNewDirtiedRanges
            [{ fromPos := 3, toPos := 6 }]))).currentValidations := by
  refine ⟨(c3_ranges_dirtied_evicts_overlapping (trId 1) _ _).1, ?_, ?_⟩
  · exact (c3_ranges_dirtied_evicts_overlapping (trId 1)
      { createInitialState "0123456789" 2000 8000 with
          currentValidations := [outputAt "a" 2 4 "23", outputAt "b" 7 8 "7"] }
      [{ fromPos := 3, toPos := 6 }]).2.1 (outputAt "a" 2 4 "23") (by decide)
      ⟨{ fromPos := 3, toPos := 6 }, by decide, by decide⟩
  · exact (c3_ranges_dirtied_evicts_overlapping (trId 1)
      { createInitialState "0123456789" 2000 8000 with
          currentValidations := [outputAt "a" 2 4 "23", outputAt "b" 7 8 "7"] }
      [{ fromPos := 3, toPos := 6 }]).2.2 (outputAt "b" 7 8 "7") (by decide)
      (by decide)

/-- C9: a `RequestSucceeded` transition whose id matches no in-flight entry
leaves the state exactly as produced by the mandatory re-mapping step:
current validations, in-flight requests, dirtied ranges and error are
untouched by the action. -/
theorem c9_success_unknown_id_noop (tr : Transaction) (s : IPluginState)
    (response : IValidationResponse)
    (hfind : selectValidationInFlightById (remapState tr s) response.id = none) :
    validationPluginReducer tr s (some (Action.validationRequestSuccess response))
      = remapState tr s := by
  show handleValidationRequestSuccess tr (remapState tr s) response = remapState tr s
  unfold handleValidationRequestSuccess
  rw [hfind]

/-- C9 witness: a success response for an unknown id on a state with one
unrelated in-flight request is a no-op beyond the re-mapping step. -/
theorem c9_success_unknown_id_noop_witness :
    (selectValidationInFlightById (remapState (trId 1) stateWithFlightAndDirty) "zz" = none)
    ∧ (validationPluginReducer (trId 1) stateWithFlightAndDirty
        (some (Action.validationRequestSuccess { id := "zz", validationOutputs := [] }))
        = remapState (trId 1) stateWithFlightAndDirty) :=
  ⟨by decide,
    c9_success_unknown_id_noop (trId 1) stateWithFlightAndDirty
      { id := "zz", validationOutputs := [] } (by decide)⟩

/-- C2: when the orchestrator's throttle timer fires with at least one
validation in flight, no dirty-range request is dispatched on that firing;
the validation is rescheduled for another `currentThrottle` interval. -/
theorem c2_defer_while_in_flight (svc : ValidationServiceState) (ps : IPluginState)
    (h : selectValidationsInFlight ps ≠ []) :
    requestValidation svc (some ps)
        = ({ validationPending := true, currentThrottle := svc.currentThrottle },
            FireOutcome.deferred (some svc.currentThrottle))
    ∧ (requestValidation svc (some ps)).2 ≠ FireOutcome.dispatched := by
  have hlen : ((selectValidationsInFlight ps).length != 0) = true := by
    simp only [bne_iff_ne, ne_eq]
    intro hc
    exact h (List.eq_nil_of_length_eq_zero hc)
  have heq : requestValidation svc (some ps)
      = ({ validationPending := true, currentThrottle := svc.currentThrottle },
          FireOutcome.deferred (some svc.currentThrottle)) := by
    unfold requestValidation
    simp only [hlen]
    rfl
  refine ⟨heq, ?_⟩
  rw [heq]
  exact fun hc => FireOutcome.noConfusion hc

/-- C2 witness: with one request in flight, a firing of the throttle timer
defers and re-arms the timer for the current throttle duration instead of
dispatching. -/
theorem c2_defer_while_in_flight_witness :
    (selectValidationsInFlight stateWithFlightAndDirty ≠ [])
    ∧ (requestValidation { validationPending := false, currentThrottle := 2000 }
          (some stateWithFlightAndDirty)
        = ({ validationPending := true, currentThrottle := 2000 },
            FireOutcome.deferred (some 2000))
      ∧ (requestValidation { validationPending := false, currentThrottle := 2000 }
          (some stateWithFlightAndDirty)).2 ≠ FireOutcome.dispatched) :=
  ⟨by decide, c2_defer_while_in_flight
    { validationPending := false, currentThrottle := 2000 } stateWithFlightAndDirty
    (by decide)⟩

/-- C5: a `RequestForDirtyRanges` transition empties the dirtied ranges,
clears the pending flag, and appends to the in-flight list one entry per
range produced by the expand function from the dirtied ranges, each with an
empty mapping and a validation input snapshotting the document text of its
range; in particular, from a state with dirtied range `[0,10)` and the
identity expand function, exactly one in-flight entry for `[0,10)` is
appended. -/
theorem c5_request_for_dirty_ranges (tr : Transaction) (s : IPluginState)
    (expandRanges : ExpandRanges) :
    ((validationPluginReducer tr s
        (some (Action.validationRequestForDirtyRanges expandRanges))).dirtiedRanges = [])
  ∧ ((validationPluginReducer tr s
        (some (Action.validationRequestForDirtyRanges expandRanges))).validationPending
      = false)
  ∧ ((validationPluginReducer tr s
        (some (Action.validationRequestForDirtyRanges expandRanges))).validationsInFlight
      = (remapState tr s).validationsInFlight
        ++ (expandRanges (remapState tr s).dirtiedRanges tr.doc).map (fun range =>
            { id := toString tr.time
              mapping := ([] : Mapping)
              validationInput := { fromPos := range.fromPos, toPos := range.toPos
                                   inputString := textBetween tr.doc range.fromPos range.toPos } }))
  ∧ ((validationPluginReducer (trId 5)
        { createInitialState "0123456789" 2000 8000 with
            dirtiedRanges := [{ fromPos := 0, toPos := 10 }], validationPending := true }
        (some (Action.validationRequestForDirtyRanges
          (fun rs _ => rs)))).validationsInFlight
      = [{ id := "5", mapping := [],
           validationInput := { fromPos := 0, toPos := 10, inputString := "0123456789" } }]
     ∧ (validationPluginReducer (trId 5)
          { createInitialState "0123456789" 2000 8000 with
              dirtiedRanges := [{ fromPos := 0, toPos := 10 }], validationPending := true }
          (some (Action.validationRequestForDirtyRanges
            (fun rs _ => rs)))).dirtiedRanges = []) := by
  refine ⟨rfl, rfl, ?_, by decide, by decide⟩
  show (remapState tr s).validationsInFlight
      ++ ((expandRanges (remapState tr s).dirtiedRanges tr.doc).map (fun range =>
            ({ inputString := textBetween tr.doc range.fromPos range.toPos,
               fromPos := range.fromPos, toPos := range.toPos } : IValidationInput))).map
          (fun validationInput =>
            IValidationInFlight.mk [] validationInput (toString tr.time))
      = _
  rw [List.map_map]
  rfl

/-- C4 counterexample: a reachable state in which an accepted validation
overlaps a dirtied range.  A request fails after another request covering
the same text succeeded; the failure re-dirties the failed input's range
without evicting the accepted result that overlaps it. -/
theorem c4_no_overlap_invariant_counterexample :
    Reachable c4Step4
    ∧ (c4Step4.currentValidations.any (fun v =>
        c4Step4.dirtiedRanges.any (fun d => rangesOverlap (outputToRange v) d))) = true := by
  constructor
  · exact Reachable.step (trId 3) _ (Reachable.step (trId 2) _ (Reachable.step (trId 1) _
      (Reachable.step (trId 0) _ (Reachable.init "0123456789" 2000 8000))))
  · decide

/-- C4 amended: the no-overlap-with-dirtied-ranges half of the invariant
holds immediately after any `RequestSucceeded` transition resolved against
an in-flight entry - but not at every reachable state, because a
`RequestFailed` transition re-dirties the failed request's range without
evicting overlapping entries from `currentValidations`. -/
theorem c4_amended_success_leaves_no_dirty_overlap (tr : Transaction) (s : IPluginState)
    (response : IValidationResponse) (entry : IValidationInFlight)
    (hfind : selectValidationInFlightById (remapState tr s) response.id = some entry) :
    ∀ v ∈ (validationPluginReducer tr s
        (some (Action.validationRequestSuccess response))).currentValidations,
      ∀ d ∈ (validationPluginReducer tr s
        (some (Action.validationRequestSuccess response))).dirtiedRanges,
        rangesOverlap (outputToRange v) d = false := by
  rw [reducer_success_found tr s response entry hfind]
  intro v hv d hd
  exact mem_removeOverlappingRanges_no_overlap hv d hd

/-- C4 amended witness: after a success resolved against the in-flight
request, no accepted validation overlaps any dirtied range. -/
theorem c4_amended_success_leaves_no_dirty_overlap_witness :
    (selectValidationInFlightById (remapState (trId 1) stateWithFlightAndDirty) "r1"
        = some inFlight01)
    ∧ (∀ v ∈ (validationPluginReducer (trId 1) stateWithFlightAndDirty
          (some (Action.validationRequestSuccess
            { id := "r1", validationOutputs := [outputAt "b" 6 8 "67"] }))).currentValidations,
        ∀ d ∈ (validationPluginReducer (trId 1) stateWithFlightAndDirty
          (some (Action.validationRequestSuccess
            { id := "r1", validationOutputs := [outputAt "b" 6 8 "67"] }))).dirtiedRanges,
          rangesOverlap (outputToRange v) d = false) :=
  ⟨by decide, c4_amended_success_leaves_no_dirty_overlap (trId 1) stateWithFlightAndDirty
    { id := "r1", validationOutputs := [outputAt "b" 6 8 "67"] } inFlight01 (by decide)⟩

/-- C6 counterexample: an in-flight entry covers `[0,10)`, but the failure
payload carries the validation input `[3,4)`; the code merges the payload's
range, not the entry's original input range, into the dirtied ranges. -/
theorem c6_payload_range_counterexample :
    ((validationPluginReducer (trId 1) c6State
        (some (Action.validationRequestError
          { id := "r1", validationInput := { fromPos := 3, toPos := 4, inputString := "3" },
            message := "network error" }))).dirtiedRanges
      = [{ fromPos := 3, toPos := 4 }])
    ∧ ({ fromPos := 0, toPos := 10 } : IRange) ∉
        (validationPluginReducer (trId 1) c6State
          (some (Action.validationRequestError
            { id := "r1", validationInput := { fromPos := 3, toPos := 4, inputString := "3" },
              message := "network error" }))).dirtiedRanges :=
  ⟨by decide, by decide⟩

/-- C6 amended: on a `RequestFailed` transition, when the in-flight entry
named by the error id is found, the range of the validation input carried
in the error payload - mapped through that entry's accumulated mapping -
is merged into the dirtied ranges (this coincides with the entry's
original input range whenever the payload echoes the entry's input), the
entry is removed, and the error message is recorded; when no entry
matches, only the error message is recorded and dirtied ranges and
in-flight requests are unchanged. -/
theorem c6_amended_request_failed (tr : Transaction) (s : IPluginState)
    (validationError : IValidationError) :
    (∀ entry, selectValidationInFlightById (remapState tr s) validationError.id = some entry →
      ((validationPluginReducer tr s
          (some (Action.validationRequestError validationError))).dirtiedRanges
        = mergeRanges ((remapState tr s).dirtiedRanges
            ++ [mapRange entry.mapping
                  (validationInputToRange validationError.validationInput)])
      ∧ (validationPluginReducer tr s
          (some (Action.validationRequestError validationError))).validationsInFlight
        = (remapState tr s).validationsInFlight.erase entry
      ∧ (validationPluginReducer tr s
          (some (Action.validationRequestError validationError))).error
        = some validationError.message))
    ∧ (selectValidationInFlightById (remapState tr s) validationError.id = none →
      ((validationPluginReducer tr s
          (some (Action.validationRequestError validationError))).dirtiedRanges
        = (remapState tr s).dirtiedRanges
      ∧ (validationPluginReducer tr s
          (some (Action.validationRequestError validationError))).validationsInFlight
        = (remapState tr s).validationsInFlight
      ∧ (validationPluginReducer tr s
          (some (Action.validationRequestError validationError))).error
        = some validationError.message)) := by
  constructor
  · intro entry hfind
    have hred : validationPluginReducer tr s
        (some (Action.validationRequestError validationError))
        = { remapState tr s with
            dirtiedRanges := mergeRanges ((remapState tr s).dirtiedRanges
              ++ [mapRange entry.mapping
                    (validationInputToRange validationError.validationInput)])
            validationsInFlight := (remapState tr s).validationsInFlight.erase entry
            error := some validationError.message } := by
      show handleValidationRequestError tr (remapState tr s) validationError = _
      unfold handleValidationRequestError
      rw [hfind]
      rfl
    rw [hred]
    exact ⟨rfl, rfl, rfl⟩
  · intro hfind
    have hred : validationPluginReducer tr s
        (some (Action.validationRequestError validationError))
        = { remapState tr s with error := some validationError.message } := by
      show handleValidationRequestError tr (remapState tr s) validationError = _
      unfold handleValidationRequestError
      rw [hfind]
      rfl
    rw [hred]
    exact ⟨rfl, rfl, rfl⟩

/-- C6 amended witness: the spec scenario - one in-flight request `"r1"`
for `[0,10)` failing with a payload echoing its input yields dirtied
ranges `[0,10)`, no in-flight requests, and the error message. -/
theorem c6_amended_request_failed_witness :
    (selectValidationInFlightById (remapState (trId 1) c6State) "r1" = some inFlight01)
    ∧ ((validationPluginReducer (trId 1) c6State
          (some (Action.validationRequestError
            { id := "r1",
              validationInput := { fromPos := 0, toPos := 10, inputString := "0123456789" },
              message := "network error" }))).dirtiedRanges
        = mergeRanges ((remapState (trId 1) c6State).dirtiedRanges
            ++ [mapRange inFlight01.mapping (validationInputToRange
                  { fromPos := 0, toPos := 10, inputString := "0123456789" })])
      ∧ (validationPluginReducer (trId 1) c6State
          (some (Action.validationRequestError
            { id := "r1",
              validationInput := { fromPos := 0, toPos := 10, inputString := "0123456789" },
              message := "network error" }))).validationsInFlight
        = (remapState (trId 1) c6State).validationsInFlight.erase inFlight01
      ∧ (validationPluginReducer (trId 1) c6State
          (some (Action.validationRequestError
            { id := "r1",
              validationInput := { fromPos := 0, toPos := 10, inputString := "0123456789" },
              message := "network error" }))).error
        = some "network error") :=
  ⟨by decide,
    (c6_amended_request_failed (trId 1) c6State
      { id := "r1",
        validationInput := { fromPos := 0, toPos := 10, inputString := "0123456789" },
        message := "network error" }).1 inFlight01 (by decide)⟩

/-- C7 counterexample: a reachable state - immediately after a
`RangesDirtied` transition - whose dirtied ranges are neither merged nor
non-overlapping: the handler concatenates the new ranges without merging. -/
theorem c7_dirtied_ranges_unmerged_counterexample :
    Reachable c7State
    ∧ c7State.dirtiedRanges = [{ fromPos := 0, toPos := 5 }, { fromPos := 3, toPos := 8 }]
    ∧ ¬ c7State.dirtiedRanges.Pairwise (fun a b => a.toPos < b.fromPos) := by
  refine ⟨Reachable.step (trId 0) _ (Reachable.init "0123456789" 2000 8000), by decide, ?_⟩
  intro hpair
  have heq : c7State.dirtiedRanges
      = [{ fromPos := 0, toPos := 5 }, { fromPos := 3, toPos := 8 }] := by decide
  rw [heq] at hpair
  have h := (List.pairwise_cons.mp hpair).1 _ (List.mem_cons_self _ _)
  simp at h

/-- C7 amended: the dirtied ranges are merged and non-overlapping
immediately after the mandatory re-mapping step of every transition (and
the action handlers other than `RangesDirtied` keep them so); a
`RangesDirtied` transition itself concatenates the newly dirtied ranges
without merging, so the list may overlap until the next transition
re-merges it. -/
theorem c7_amended_dirtied_ranges_merged_after_remap (tr : Transaction) (s : IPluginState) :
    ((remapState tr s).dirtiedRanges).Pairwise (fun a b => a.toPos < b.fromPos) :=
  mergeRanges_pairwise (s.dirtiedRanges.map (mapRange tr.mapping))

/-- C8 counterexample: a single dispatch appending two in-flight entries
gives both the same id `"7"` - the transaction timestamp - so the appended
entries do not have pairwise distinct ids. -/
theorem c8_duplicate_ids_counterexample :
    c8State.validationsInFlight.map (fun e => e.id) = ["7", "7"]
    ∧ ¬ (c8State.validationsInFlight.map (fun e => e.id)).Pairwise (fun a b => a ≠ b) := by
  refine ⟨by decide, ?_⟩
  intro hpair
  have heq : c8State.validationsInFlight.map (fun e => e.id) = ["7", "7"] := by decide
  rw [heq] at hpair
  exact (List.pairwise_cons.mp hpair).1 _ (List.mem_cons_self _ _) rfl

/-- C8 amended: every in-flight entry appended by a
`RequestForDirtyRanges` or `RequestForWholeDocument` transition carries
the same id - the string of the transaction timestamp - so entries
appended together share one id rather than receiving pairwise distinct
fresh ids. -/
theorem c8_amended_appended_ids_share_tr_time (tr : Transaction) (s : IPluginState)
    (expandRanges : ExpandRanges) :
    (((validationPluginReducer tr s
        (some (Action.validationRequestForDirtyRanges expandRanges))).validationsInFlight.drop
          (remapState tr s).validationsInFlight.length).all
        (fun e => e.id == toString tr.time) = true)
    ∧ (((validationPluginReducer tr s
        (some Action.validationRequestForDocument)).validationsInFlight.drop
          (remapState tr s).validationsInFlight.length).all
        (fun e => e.id == toString tr.time) = true) := by
  constructor
  · show (((remapState tr s).validationsInFlight
        ++ ((expandRanges (remapState tr s).dirtiedRanges tr.doc).map (fun range =>
              ({ inputString := textBetween tr.doc range.fromPos range.toPos,
                 fromPos := range.fromPos, toPos := range.toPos } : IValidationInput))).map
            (fun validationInput =>
              IValidationInFlight.mk [] validationInput (toString tr.time))).drop
          (remapState tr s).validationsInFlight.length).all
        (fun e => e.id == toString tr.time) = true
    rw [List.drop_left]
    refine List.all_eq_true.mpr ?_
    intro e he
    rcases List.mem_map.mp he with ⟨x, _, rfl⟩
    exact beq_self_eq_true _
  · show (((remapState tr s).validationsInFlight
        ++ (createValidationInputsForDocument tr.doc).map
            (fun validationInput =>
              IValidationInFlight.mk [] validationInput (toString tr.time))).drop
          (remapState tr s).validationsInFlight.length).all
        (fun e => e.id == toString tr.time) = true
    rw [List.drop_left]
    refine List.all_eq_true.mpr ?_
    intro e he
    rcases List.mem_map.mp he with ⟨x, _, rfl⟩
    exact beq_self_eq_true _

/-- The reducer never touches the transaction history. -/
theorem reducer_preserves_trHistory (tr : Transaction) (s : IPluginState)
    (action : Option Action) :
    (validationPluginReducer tr s action).trHistory = s.trHistory := by
  match action with
  | none => rfl
  | some (Action.newHoverId hoverId hoverInfo) => rfl
  | some (Action.validationRequestForDirtyRanges expandRanges) => rfl
  | some Action.validationRequestForDocument => rfl
  | some (Action.validationRequestSuccess response) =>
    show (handleValidationRequestSuccess tr (remapState tr s) response).trHistory
        = s.trHistory
    unfold handleValidationRequestSuccess
    cases selectValidationInFlightById (remapState tr s) response.id with
    | none => rfl
    | some e => rfl
  | some (Action.validationRequestError validationError) =>
    show (handleValidationRequestError tr (remapState tr s) validationError).trHistory
        = s.trHistory
    unfold handleValidationRequestError
    cases selectValidationInFlightById (remapState tr s) validationError.id with
    | none => rfl
    | some v => rfl
  | some (Action.selectValidation validationId) => rfl
  | some (Action.applyNewDirtiedRanges ranges) => rfl
  | some (Action.setDebugState debug) => rfl

/-- One history update keeps the length at 26 or below. -/
theorem updateTrHistory_length_le (h : List Transaction) (tr : Transaction)
    (hlen : h.length ≤ 26) : (updateTrHistory h tr).length ≤ 26 := by
  unfold updateTrHistory
  by_cases hgt : h.length > 25
  · rw [if_pos hgt]
    simp only [List.length_append, List.length_drop, List.length_singleton]
    omega
  · rw [if_neg hgt]
    simp only [List.length_append, List.length_singleton]
    omega

/-- The plugin's `apply` updates the transaction history exactly by
`updateTrHistory`. -/
theorem pluginApply_trHistory (tr : Transaction) (s : IPluginState)
    (action : Option Action) :
    (pluginApply tr s action).trHistory = updateTrHistory s.trHistory tr := by
  unfold pluginApply
  rw [reducer_preserves_trHistory]

/-- Folding `pluginApply` preserves the history bound. -/
theorem foldl_pluginApply_trHistory_le (steps : List (Transaction × Option Action)) :
    ∀ s : IPluginState, s.trHistory.length ≤ 26 →
      (steps.foldl (fun st p => pluginApply p.1 st p.2) s).trHistory.length ≤ 26 := by
  induction steps with
  | nil => intro s hs; exact hs
  | cons p rest ih =>
    intro s hs
    have h1 : (pluginApply p.1 s p.2).trHistory.length ≤ 26 := by
      rw [pluginApply_trHistory]
      exact updateTrHistory_length_le _ _ hs
    exact ih _ h1

/-- C10: from the initial state (empty history), the transaction history
kept by the plugin's `apply` never holds more than 26 transactions, and
once its length exceeds 25 an application drops the oldest transaction
while appending the new one. -/
theorem c10_tr_history_bounded (steps : List (Transaction × Option Action))
    (doc : String) (throttleInMs maxThrottle : Nat) :
    ((steps.foldl (fun st p => pluginApply p.1 st p.2)
        (createInitialState doc throttleInMs maxThrottle)).trHistory.length ≤ 26)
    ∧ (∀ (h : List Transaction) (tr : Transaction), 25 < h.length →
        updateTrHistory h tr = h.drop 1 ++ [tr]) := by
  constructor
  · exact foldl_pluginApply_trHistory_le steps _ (by simp [createInitialState])
  · intro h tr hlen
    unfold updateTrHistory
    rw [if_pos hlen]

/-- C10 witness: a 26-transaction history exceeds 25, and the next
application drops the oldest transaction. -/
theorem c10_tr_history_bounded_witness :
    (25 < (List.replicate 26 (trId 0)).length)
    ∧ updateTrHistory (List.replicate 26 (trId 0)) (trId 1)
        = (List.replicate 26 (trId 0)).drop 1 ++ [trId 1] :=
  ⟨by decide,
    (c10_tr_history_bounded [] "0123456789" 2000 8000).2
      (List.replicate 26 (trId 0)) (trId 1) (by decide)⟩

end Typerighter
